import Mathlib

/-!
Verification of the flow-controlled TCP write pipeline of
`pavel-romanov8/node-js-tcp-socket`: the `BackpressureMonitor` and
`DataGenerator` of `exercise-3-solution.js` and the `ConnectionPool` of
`exercise-1-solution.js`, shallowly embedded as pure Lean functions.
Byte counts and list lengths are `Nat`; JavaScript numbers used for rates,
utilization percentages and timestamps are modelled as `ℚ`.
-/

namespace TcpSocket

/-! ## BackpressureMonitor (exercise-3-solution.js) -/

namespace Monitor

/-- Observable state of the wrapped `net.Socket`, as read by the monitor:
`writableLength`, `writableHighWaterMark`, `destroyed`, `pending`,
`readyState`. -/
structure SocketState where
  writableLength : Nat
  writableHighWaterMark : Nat
  destroyed : Bool
  pending : Bool
  readyState : String
deriving DecidableEq

/-- JavaScript `this.socket.writableHighWaterMark || 16384`: a zero (falsy)
high-water mark is replaced by the 16384 default. -/
def hwmOrDefault (h : Nat) : Nat :=
  if h = 0 then 16384 else h

/-- `BackpressureMonitor.getBufferUtilization`: returns 0 for a destroyed
socket, else `(writableLength / highWaterMark) * 100` — a percentage. -/
def getBufferUtilization (s : SocketState) : ℚ :=
  if s.destroyed then 0
  else ((s.writableLength : ℚ) / (hwmOrDefault s.writableHighWaterMark : ℚ)) * 100

/-- `BackpressureMonitor.isBackpressureActive`: false for a destroyed socket,
else `writableLength >= highWaterMark * 0.8`. -/
def isBackpressureActive (s : SocketState) : Bool :=
  if s.destroyed then false
  else decide ((hwmOrDefault s.writableHighWaterMark : ℚ) * (8 / 10) ≤ (s.writableLength : ℚ))

/-- The record pushed onto `bufferHistory` by
`BackpressureMonitor.recordBufferState`. -/
structure BufferSample where
  timestamp : ℚ
  writableLength : Nat
  writableHighWaterMark : Nat
  bufferUtilization : ℚ
  backpressureActive : Bool
  pending : Bool
  readyState : String
deriving DecidableEq

/-- The sample built by `recordBufferState` from the socket state `st` at
time `t`; note its utilization is computed without the destroyed-socket
guard of `getBufferUtilization`. -/
def mkSample (st : SocketState) (t : ℚ) : BufferSample :=
  { timestamp := t
    writableLength := st.writableLength
    writableHighWaterMark := hwmOrDefault st.writableHighWaterMark
    bufferUtilization :=
      ((st.writableLength : ℚ) / (hwmOrDefault st.writableHighWaterMark : ℚ)) * 100
    backpressureActive := isBackpressureActive st
    pending := st.pending
    readyState := st.readyState }

/-- The `push` / `if (length > cap) shift()` idiom used for both
`bufferHistory` (cap 100) and `writeTimings` (cap 100). -/
def pushCap (cap : Nat) (h : List α) (s : α) : List α :=
  let h2 := h ++ [s]
  if cap < h2.length then h2.tail else h2

/-- Effect of `BackpressureMonitor.recordBufferState` on `bufferHistory`. -/
def recordStep (h : List BufferSample) (st : SocketState) (t : ℚ) : List BufferSample :=
  pushCap 100 h (mkSample st t)

/-- History after recording every `(socket state, timestamp)` input in order,
starting from an empty history. -/
def recordAll (inputs : List (SocketState × ℚ)) : List BufferSample :=
  inputs.foldl (fun h p => recordStep h p.1 p.2) []

/-- The monitor's `stats` object. -/
structure MonitorStats where
  writeAttempts : Nat
  backpressureEvents : Nat
  maxBufferSize : Nat
  drainEvents : Nat
  totalBytesWritten : Nat
  totalBytesRead : Nat
  writeFailures : Nat
  avgWriteTime : ℚ
deriving DecidableEq

/-- Initial `stats` set in the constructor. -/
def initStats : MonitorStats :=
  { writeAttempts := 0, backpressureEvents := 0, maxBufferSize := 0, drainEvents := 0
    totalBytesWritten := 0, totalBytesRead := 0, writeFailures := 0, avgWriteTime := 0 }

/-- The overridden `socket.write` installed by `startMonitoring`: bumps
`writeAttempts`, accumulates `totalBytesWritten`, records the write timing,
recomputes `avgWriteTime`, bumps `backpressureEvents` when the underlying
write returned false, and updates the `maxBufferSize` watermark.
`dataSize` is the payload's byte length, `canWriteMore` the value returned
by the original write, `wl` the socket's `writableLength` afterwards and
`wt` the measured write time. -/
def socketWrite (s : MonitorStats) (timings : List ℚ) (dataSize : Nat)
    (canWriteMore : Bool) (wl : Nat) (wt : ℚ) : MonitorStats × List ℚ :=
  let s1 := { s with writeAttempts := s.writeAttempts + 1
                     totalBytesWritten := s.totalBytesWritten + dataSize }
  let timings2 := pushCap 100 timings wt
  let s2 := { s1 with avgWriteTime :=
      (timings2.foldl (fun a b => a + b) 0) / (timings2.length : ℚ) }
  let s3 := if canWriteMore then s2
            else { s2 with backpressureEvents := s2.backpressureEvents + 1 }
  ({ s3 with maxBufferSize := max s3.maxBufferSize wl }, timings2)

/-- The `socket.on('drain', ...)` handler registered by `startMonitoring`. -/
def onDrain (s : MonitorStats) : MonitorStats :=
  { s with drainEvents := s.drainEvents + 1 }

/-- The `socket.on('data', ...)` handler registered by `startMonitoring`. -/
def onData (s : MonitorStats) (n : Nat) : MonitorStats :=
  { s with totalBytesRead := s.totalBytesRead + n }

/-- The `socket.on('error', ...)` handler registered by `startMonitoring`. -/
def onSocketError (s : MonitorStats) : MonitorStats :=
  { s with writeFailures := s.writeFailures + 1 }

/-- Mutable state of a `BackpressureMonitor` instance, with the timer and
listener bookkeeping made explicit: `monitoringIntervalActive` and
`dashboardIntervalActive` track the two `setInterval` timers,
`listenersAttached` tracks the `socket.on` handlers registered by
`startMonitoring`, and `writeOverridden` tracks the `socket.write`
override. -/
structure MonitorState where
  stats : MonitorStats
  bufferHistory : List BufferSample
  writeTimings : List ℚ
  isMonitoring : Bool
  listenersAttached : Bool
  monitoringIntervalActive : Bool
  dashboardIntervalActive : Bool
  writeOverridden : Bool
deriving DecidableEq

/-- Monitor state right after the constructor runs. -/
def initMonitor : MonitorState :=
  { stats := initStats, bufferHistory := [], writeTimings := []
    isMonitoring := false, listenersAttached := false
    monitoringIntervalActive := false, dashboardIntervalActive := false
    writeOverridden := false }

/-- `BackpressureMonitor.startMonitoring`: sets the flag, overrides
`socket.write`, attaches the socket listeners and starts both intervals. -/
def startMonitoring (m : MonitorState) : MonitorState :=
  { m with isMonitoring := true, writeOverridden := true, listenersAttached := true
           monitoringIntervalActive := true, dashboardIntervalActive := true }

/-- `BackpressureMonitor.stopMonitoring`: early-returns when not monitoring;
otherwise clears the flag, restores `socket.write` and clears both
intervals. The socket listeners registered by `startMonitoring` are not
removed. -/
def stopMonitoring (m : MonitorState) : MonitorState :=
  if ¬m.isMonitoring then m
  else { m with isMonitoring := false, writeOverridden := false
                monitoringIntervalActive := false, dashboardIntervalActive := false }

/-- One firing of the periodic `monitoringInterval` callback: records the
current buffer state only while the interval is live and `isMonitoring`. -/
def samplerTick (m : MonitorState) (st : SocketState) (t : ℚ) : MonitorState :=
  if m.monitoringIntervalActive && m.isMonitoring then
    { m with bufferHistory := recordStep m.bufferHistory st t }
  else m

/-- A socket `drain` event reaching the monitor: handled iff the listeners
are attached. -/
def drainEvent (m : MonitorState) : MonitorState :=
  if m.listenersAttached then { m with stats := onDrain m.stats } else m

/-- A socket `data` event of `n` bytes reaching the monitor: handled iff the
listeners are attached. -/
def dataEvent (m : MonitorState) (n : Nat) : MonitorState :=
  if m.listenersAttached then { m with stats := onData m.stats n } else m

/-- A socket `error` event reaching the monitor: handled iff the listeners
are attached. -/
def errorEvent (m : MonitorState) : MonitorState :=
  if m.listenersAttached then { m with stats := onSocketError m.stats } else m

/-- The snapshot returned by `BackpressureMonitor.getStats`. -/
structure StatsView where
  stats : MonitorStats
  currentBufferState : BufferSample
  backpressureActive : Bool
  bufferUtilization : ℚ
  bufferHistory : List BufferSample
deriving DecidableEq

/-- `BackpressureMonitor.getStats`: its `currentBufferState` field is
produced by calling `recordBufferState`, which pushes a fresh sample onto
`bufferHistory` before `bufferHistory.slice(-10)` is read. -/
def getStats (m : MonitorState) (st : SocketState) (t : ℚ) : MonitorState × StatsView :=
  let h2 := recordStep m.bufferHistory st t
  ({ m with bufferHistory := h2 },
   { stats := m.stats
     currentBufferState := mkSample st t
     backpressureActive := isBackpressureActive st
     bufferUtilization := getBufferUtilization st
     bufferHistory := h2.drop (h2.length - 10) })

end Monitor

/-! ## DataGenerator (exercise-3-solution.js) -/

namespace Gen

/-- The rate-control state of a `DataGenerator`: `generationRate` is the
configured nominal rate, `currentRate` the live adapted rate. -/
structure GenState where
  generationRate : ℚ
  currentRate : ℚ
  adaptiveMode : Bool
deriving DecidableEq

/-- `DataGenerator.adjustRate`: a no-op outside adaptive mode; on
backpressure `currentRate = max(currentRate * 0.5, generationRate * 0.1)`,
on drain `currentRate = min(currentRate * 1.2, generationRate)`. -/
def adjustRate (g : GenState) (backpressureDetected : Bool) : GenState :=
  if ¬g.adaptiveMode then g
  else if backpressureDetected then
    { g with currentRate := max (g.currentRate * (1 / 2)) (g.generationRate * (1 / 10)) }
  else
    { g with currentRate := min (g.currentRate * (6 / 5)) g.generationRate }

/-- The rate window `[10% of nominal, nominal]` the adaptive producer is
claimed to stay inside. -/
def rateInBounds (g : GenState) : Prop :=
  g.generationRate * (1 / 10) ≤ g.currentRate ∧ g.currentRate ≤ g.generationRate

instance (g : GenState) : Decidable (rateInBounds g) := by
  unfold rateInBounds; infer_instance

end Gen

/-! ## ConnectionPool (exercise-1-solution.js) -/

namespace Pool

/-- A pooled `MonitoredSocket`, reduced to its identity and its
`metrics.reuseCount`. Object identity is modelled by `id`. -/
structure Conn where
  id : Nat
  reuseCount : Nat
deriving DecidableEq

/-- JavaScript `Set.has`, with object identity modelled by `id`. -/
def setHas (l : List Conn) (c : Conn) : Bool :=
  l.any (fun x => decide (x.id = c.id))

/-- JavaScript `Set.add`: appends unless already a member. -/
def setAdd (l : List Conn) (c : Conn) : List Conn :=
  if setHas l c then l else l ++ [c]

/-- JavaScript `Set.delete`: removes the member with this identity. -/
def setDelete (l : List Conn) (c : Conn) : List Conn :=
  l.filter (fun x => decide (x.id ≠ c.id))

/-- The pool's state: the `available` array (pushed/popped at the end), the
`inUse` set, the configured `maxSockets`, the `totalCreated`/`totalReused`
counters and the `metrics` counters. `nextId` supplies the identity of the
next freshly constructed socket. -/
structure PoolState where
  available : List Conn
  inUse : List Conn
  maxSockets : Nat
  totalCreated : Nat
  totalReused : Nat
  acquisitions : Nat
  releases : Nat
  timeouts : Nat
  failures : Nat
  nextId : Nat
deriving DecidableEq

/-- Pool state right after `new ConnectionPool(n)`. -/
def initPool (n : Nat) : PoolState :=
  { available := [], inUse := [], maxSockets := n, totalCreated := 0, totalReused := 0
    acquisitions := 0, releases := 0, timeouts := 0, failures := 0, nextId := 0 }

/-- Outcome of one `ConnectionPool.acquire` call: a reused pooled socket, a
newly created one, a connect failure thrown to the caller, or (pool
exhausted) a pending promise waiting for `socketReleased` or the timeout. -/
inductive AcquireResult
  | reused (c : Conn)
  | created (c : Conn)
  | connectFailed
  | blocked
deriving DecidableEq

/-- `ConnectionPool.acquire` up to its first suspension: bumps
`acquisitions`; pops the most recently released available socket if any
(bumping its `reuseCount` and `totalReused`); else if `inUse.size <
maxSockets` creates a fresh socket, adds it to `inUse`, bumps
`totalCreated` and connects it — on connect failure the socket is deleted
from `inUse`, `failures` is bumped and the error is rethrown; else the
caller blocks. `connectOk` is the transport's connect outcome. -/
def acquire (p : PoolState) (connectOk : Bool) : PoolState × AcquireResult :=
  let p := { p with acquisitions := p.acquisitions + 1 }
  match p.available.getLast? with
  | some c =>
      let c2 : Conn := { c with reuseCount := c.reuseCount + 1 }
      ({ p with available := p.available.dropLast
                inUse := setAdd p.inUse c2
                totalReused := p.totalReused + 1 }, .reused c2)
  | none =>
      if p.inUse.length < p.maxSockets then
        let c : Conn := ⟨p.nextId, 0⟩
        let p1 := { p with inUse := setAdd p.inUse c
                           totalCreated := p.totalCreated + 1
                           nextId := p.nextId + 1 }
        if connectOk then (p1, .created c)
        else ({ p1 with inUse := setDelete p1.inUse c
                        failures := p1.failures + 1 }, .connectFailed)
      else (p, .blocked)

/-- Outcome of one `ConnectionPool.release` call. -/
inductive ReleaseResult
  | foreignRelease
  | pooled
  | destroyed
deriving DecidableEq

/-- `ConnectionPool.release`: bumps `releases`; warns and returns if the
socket is not in `inUse`; otherwise removes it from `inUse` and, when
healthy and the available array is below `maxSockets`, pushes it onto
`available`, else destroys it. `healthy` is `_isSocketHealthy(socket)`. -/
def release (p : PoolState) (c : Conn) (healthy : Bool) : PoolState × ReleaseResult :=
  let p := { p with releases := p.releases + 1 }
  if ¬ setHas p.inUse c then (p, .foreignRelease)
  else
    let p2 := { p with inUse := setDelete p.inUse c }
    if healthy && decide (p2.available.length < p2.maxSockets) then
      ({ p2 with available := p2.available ++ [c] }, .pooled)
    else (p2, .destroyed)

/-- Firing of the 5000 ms timeout armed for a blocked acquirer: bumps
`metrics.timeouts` and rejects with the timeout error. -/
def waiterTimeout (p : PoolState) : PoolState :=
  { p with timeouts := p.timeouts + 1 }

/-- How a blocked acquire resolves. -/
inductive WaitOutcome
  | acquireTimeout
  | retried (r : AcquireResult)
deriving DecidableEq

/-- Resolution of a blocked acquire: if a `socketReleased` event arrived
first, the timeout is cleared and `acquire` reruns; otherwise the timeout
fires and the caller gets the timeout error. -/
def resolveWaiter (p : PoolState) (released : Bool) (connectOk : Bool) :
    PoolState × WaitOutcome :=
  if released then
    let r := acquire p connectOk
    (r.1, .retried r.2)
  else (waiterTimeout p, .acquireTimeout)

/-- An external stimulus driving the pool. -/
inductive PoolEvent
  | acq (connectOk : Bool)
  | rel (c : Conn) (healthy : Bool)
deriving DecidableEq

/-- State transition of the pool under one stimulus. -/
def step (p : PoolState) : PoolEvent → PoolState
  | .acq ok => (acquire p ok).1
  | .rel c h => (release p c h).1

/-- Pool state after a `new ConnectionPool(n)` followed by a sequence of
acquire/release stimuli. -/
def run (n : Nat) (es : List PoolEvent) : PoolState :=
  es.foldl step (initPool n)

end Pool

/-! ## Helper lemmas -/

/-- The defaulted high-water mark is positive. -/
theorem hwmOrDefault_pos (h : Nat) : 0 < Monitor.hwmOrDefault h := by
  unfold Monitor.hwmOrDefault
  split <;> omega

/-- Pushing onto a capped list keeps its length within the cap. -/
theorem pushCap_length_le {α : Type} (cap : Nat) (h : List α) (s : α)
    (hh : h.length ≤ cap) : (Monitor.pushCap cap h s).length ≤ cap := by
  simp only [Monitor.pushCap]
  split <;> simp_all

/-- One capped push, described as append-then-drop. -/
theorem pushCap_eq_drop {α : Type} (cap : Nat) (h : List α) (s : α)
    (hh : h.length ≤ cap) :
    Monitor.pushCap cap h s = (h ++ [s]).drop (h.length + 1 - cap) := by
  simp only [Monitor.pushCap]
  split
  next hc =>
    simp only [List.length_append, List.length_singleton] at hc
    have h1 : h.length + 1 - cap = 1 := by omega
    rw [h1, ← List.drop_one]
  next hc =>
    simp only [List.length_append, List.length_singleton] at hc
    have h0 : h.length + 1 - cap = 0 := by omega
    rw [h0, List.drop_zero]

/-- Folding capped pushes over a batch: the capped list holds the last
`cap` pushed elements, oldest first. -/
theorem foldl_pushCap_eq_drop {α : Type} (cap : Nat) (l : List α) :
    ∀ h : List α, h.length ≤ cap →
      l.foldl (Monitor.pushCap cap) h = (h ++ l).drop (h.length + l.length - cap) := by
  induction l with
  | nil =>
    intro h hh
    simp only [List.foldl_nil, List.length_nil, Nat.add_zero, List.append_nil]
    rw [Nat.sub_eq_zero_of_le hh, List.drop_zero]
  | cons s l ih =>
    intro h hh
    rw [List.foldl_cons, ih _ (pushCap_length_le cap h s hh),
        pushCap_eq_drop cap h s hh]
    by_cases hc : h.length < cap
    · have h0 : h.length + 1 - cap = 0 := by omega
      rw [h0, List.drop_zero]
      have hsplit : (h ++ [s]) ++ l = h ++ s :: l := by simp
      rw [hsplit]
      congr 1
      simp
      omega
    · have hce : h.length = cap := by omega
      have h1 : h.length + 1 - cap = 1 := by omega
      rw [h1]
      have hone : (1 : Nat) ≤ (h ++ [s]).length := by simp
      calc ((h ++ [s]).drop 1 ++ l).drop (((h ++ [s]).drop 1).length + l.length - cap)
          = ((h ++ [s]).drop 1 ++ l).drop l.length := by
            congr 1
            simp [hce]
        _ = (((h ++ [s]) ++ l).drop 1).drop l.length := by
            rw [List.drop_append_of_le_length hone]
        _ = ((h ++ [s]) ++ l).drop (l.length + 1) := by
            rw [List.drop_drop, Nat.add_comm]
        _ = (h ++ s :: l).drop (h.length + (s :: l).length - cap) := by
            have hsplit : (h ++ [s]) ++ l = h ++ s :: l := by simp
            rw [hsplit]
            congr 1
            simp only [List.length_cons]
            omega

/-- Deleting an identity right after adding it removes exactly what the add
put in (plus any prior member with that identity). -/
theorem setDelete_setAdd (l : List Pool.Conn) (c : Pool.Conn) :
    Pool.setDelete (Pool.setAdd l c) c = Pool.setDelete l c := by
  unfold Pool.setAdd
  split
  · rfl
  · unfold Pool.setDelete
    rw [List.filter_append]
    simp

/-- Deleting an identity that no member carries is a no-op. -/
theorem setDelete_eq_self (l : List Pool.Conn) (c : Pool.Conn)
    (h : ∀ x ∈ l, x.id ≠ c.id) : Pool.setDelete l c = l := by
  unfold Pool.setDelete
  rw [List.filter_eq_self]
  intro a ha
  simp [h a ha]

/-- A set add grows the member list by at most one. -/
theorem setAdd_length_le (l : List Pool.Conn) (c : Pool.Conn) :
    (Pool.setAdd l c).length ≤ l.length + 1 := by
  unfold Pool.setAdd
  split
  · omega
  · simp

/-- A set delete never grows the member list. -/
theorem setDelete_length_le (l : List Pool.Conn) (c : Pool.Conn) :
    (Pool.setDelete l c).length ≤ l.length :=
  List.length_filter_le _ _

/-- Deleting a present identity strictly shrinks the member list. -/
theorem setDelete_length_lt (l : List Pool.Conn) (c : Pool.Conn)
    (h : Pool.setHas l c = true) : (Pool.setDelete l c).length < l.length := by
  induction l with
  | nil => simp [Pool.setHas] at h
  | cons a l ih =>
    by_cases ha : a.id = c.id
    · have hfil : Pool.setDelete (a :: l) c = Pool.setDelete l c := by
        simp [Pool.setDelete, List.filter_cons, ha]
      rw [hfil]
      have h2 := setDelete_length_le l c
      simp only [List.length_cons]
      omega
    · have hfil : Pool.setDelete (a :: l) c = a :: Pool.setDelete l c := by
        simp [Pool.setDelete, List.filter_cons, ha]
      have hh : Pool.setHas l c = true := by
        simp only [Pool.setHas, List.any_cons, Bool.or_eq_true, decide_eq_true_eq] at h
        simp only [Pool.setHas]
        rcases h with h | h
        · exact absurd h ha
        · exact h
      rw [hfil]
      simp only [List.length_cons]
      exact Nat.succ_lt_succ (ih hh)

/-- Equation for `acquire` when a pooled socket is available: the most
recently released socket is popped, its reuse count bumped, and it is
moved to the in-use set; no socket is created. -/
theorem acquire_eq_reused (p : Pool.PoolState) (ok : Bool) (c : Pool.Conn)
    (hL : p.available.getLast? = some c) :
    Pool.acquire p ok =
      ({ p with acquisitions := p.acquisitions + 1
                available := p.available.dropLast
                inUse := Pool.setAdd p.inUse { c with reuseCount := c.reuseCount + 1 }
                totalReused := p.totalReused + 1 },
       Pool.AcquireResult.reused { c with reuseCount := c.reuseCount + 1 }) := by
  unfold Pool.acquire
  simp [hL]

/-- Equation for `acquire` when the pool is idle-empty and under capacity
and the connect succeeds. -/
theorem acquire_eq_created (p : Pool.PoolState) (ha : p.available = [])
    (hlt : p.inUse.length < p.maxSockets) :
    Pool.acquire p true =
      ({ p with acquisitions := p.acquisitions + 1
                inUse := Pool.setAdd p.inUse ⟨p.nextId, 0⟩
                totalCreated := p.totalCreated + 1
                nextId := p.nextId + 1 },
       Pool.AcquireResult.created ⟨p.nextId, 0⟩) := by
  unfold Pool.acquire
  simp [ha, hlt]

/-- Equation for `acquire` when the pool is idle-empty and under capacity
and the connect fails. -/
theorem acquire_eq_failed (p : Pool.PoolState) (ha : p.available = [])
    (hlt : p.inUse.length < p.maxSockets) :
    Pool.acquire p false =
      ({ p with acquisitions := p.acquisitions + 1
                inUse := Pool.setDelete (Pool.setAdd p.inUse ⟨p.nextId, 0⟩) ⟨p.nextId, 0⟩
                totalCreated := p.totalCreated + 1
                nextId := p.nextId + 1
                failures := p.failures + 1 },
       Pool.AcquireResult.connectFailed) := by
  unfold Pool.acquire
  simp [ha, hlt]

/-- Equation for `acquire` on an exhausted pool: the caller blocks. -/
theorem acquire_eq_blocked (p : Pool.PoolState) (ok : Bool)
    (ha : p.available = []) (hge : p.maxSockets ≤ p.inUse.length) :
    Pool.acquire p ok =
      ({ p with acquisitions := p.acquisitions + 1 }, Pool.AcquireResult.blocked) := by
  unfold Pool.acquire
  simp [ha, Nat.not_lt.mpr hge]

/-- Equation for `release` of a socket not tracked as in-use. -/
theorem release_eq_foreign (p : Pool.PoolState) (c : Pool.Conn) (healthy : Bool)
    (h : Pool.setHas p.inUse c = false) :
    Pool.release p c healthy =
      ({ p with releases := p.releases + 1 }, Pool.ReleaseResult.foreignRelease) := by
  unfold Pool.release
  simp [h]

/-- Equation for `release` of a healthy in-use socket with room in the
available pool. -/
theorem release_eq_pooled (p : Pool.PoolState) (c : Pool.Conn)
    (h : Pool.setHas p.inUse c = true) (hlen : p.available.length < p.maxSockets) :
    Pool.release p c true =
      ({ p with releases := p.releases + 1
                inUse := Pool.setDelete p.inUse c
                available := p.available ++ [c] }, Pool.ReleaseResult.pooled) := by
  unfold Pool.release
  simp [h, hlen]

/-- Equation for `release` of an in-use socket that is unhealthy or finds
the available pool full: the socket is destroyed, not pooled. -/
theorem release_eq_destroyed (p : Pool.PoolState) (c : Pool.Conn) (healthy : Bool)
    (h : Pool.setHas p.inUse c = true)
    (hcond : (healthy && decide (p.available.length < p.maxSockets)) = false) :
    Pool.release p c healthy =
      ({ p with releases := p.releases + 1
                inUse := Pool.setDelete p.inUse c }, Pool.ReleaseResult.destroyed) := by
  unfold Pool.release
  simp [h, hcond]

/-- `acquire` preserves the bound of in-use plus available sockets by the
pool's capacity, and does not change `maxSockets`. -/
theorem acquire_bound (p : Pool.PoolState) (ok : Bool)
    (h : p.inUse.length + p.available.length ≤ p.maxSockets) :
    (Pool.acquire p ok).1.inUse.length + (Pool.acquire p ok).1.available.length ≤
      p.maxSockets ∧ (Pool.acquire p ok).1.maxSockets = p.maxSockets := by
  cases hL : p.available.getLast? with
  | some c =>
    rw [acquire_eq_reused p ok c hL]
    have h1 := setAdd_length_le p.inUse { c with reuseCount := c.reuseCount + 1 }
    have h2 : p.available ≠ [] := by
      intro hnil
      rw [hnil] at hL
      simp at hL
    have h3 : 0 < p.available.length := List.length_pos.mpr h2
    refine ⟨?_, rfl⟩
    show (Pool.setAdd p.inUse { c with reuseCount := c.reuseCount + 1 }).length +
        p.available.dropLast.length ≤ p.maxSockets
    rw [List.length_dropLast]
    omega
  | none =>
    have ha : p.available = [] := by
      rwa [List.getLast?_eq_none_iff] at hL
    by_cases hlt : p.inUse.length < p.maxSockets
    · cases ok with
      | true =>
        rw [acquire_eq_created p ha hlt]
        have h1 := setAdd_length_le p.inUse ⟨p.nextId, 0⟩
        refine ⟨?_, rfl⟩
        show (Pool.setAdd p.inUse ⟨p.nextId, 0⟩).length + p.available.length ≤ p.maxSockets
        rw [ha]
        simp only [List.length_nil]
        omega
      | false =>
        rw [acquire_eq_failed p ha hlt]
        refine ⟨?_, rfl⟩
        show (Pool.setDelete (Pool.setAdd p.inUse ⟨p.nextId, 0⟩) ⟨p.nextId, 0⟩).length +
            p.available.length ≤ p.maxSockets
        rw [setDelete_setAdd]
        have h1 := setDelete_length_le p.inUse ⟨p.nextId, 0⟩
        omega
    · rw [acquire_eq_blocked p ok ha (Nat.not_lt.mp hlt)]
      exact ⟨h, rfl⟩

/-- `release` preserves the bound of in-use plus available sockets by the
pool's capacity, and does not change `maxSockets`. -/
theorem release_bound (p : Pool.PoolState) (c : Pool.Conn) (healthy : Bool)
    (h : p.inUse.length + p.available.length ≤ p.maxSockets) :
    (Pool.release p c healthy).1.inUse.length +
      (Pool.release p c healthy).1.available.length ≤ p.maxSockets ∧
    (Pool.release p c healthy).1.maxSockets = p.maxSockets := by
  cases hH : Pool.setHas p.inUse c with
  | false =>
    rw [release_eq_foreign p c healthy hH]
    exact ⟨h, rfl⟩
  | true =>
    cases hB : (healthy && decide (p.available.length < p.maxSockets)) with
    | true =>
      rw [Bool.and_eq_true, decide_eq_true_eq] at hB
      obtain ⟨hh, hlen⟩ := hB
      subst hh
      rw [release_eq_pooled p c hH hlen]
      refine ⟨?_, rfl⟩
      show (Pool.setDelete p.inUse c).length + (p.available ++ [c]).length ≤ p.maxSockets
      have h1 := setDelete_length_lt p.inUse c hH
      simp only [List.length_append, List.length_singleton]
      omega
    | false =>
      rw [release_eq_destroyed p c healthy hH hB]
      refine ⟨?_, rfl⟩
      show (Pool.setDelete p.inUse c).length + p.available.length ≤ p.maxSockets
      have h1 := setDelete_length_le p.inUse c
      omega

/-- The capacity bound is preserved by every pool stimulus. -/
theorem step_bound (p : Pool.PoolState) (e : Pool.PoolEvent)
    (h : p.inUse.length + p.available.length ≤ p.maxSockets) :
    (Pool.step p e).inUse.length + (Pool.step p e).available.length ≤
      (Pool.step p e).maxSockets ∧
    (Pool.step p e).maxSockets = p.maxSockets := by
  cases e with
  | acq ok =>
    obtain ⟨h1, h2⟩ := acquire_bound p ok h
    refine ⟨?_, h2⟩
    show (Pool.acquire p ok).1.inUse.length + (Pool.acquire p ok).1.available.length ≤
        (Pool.acquire p ok).1.maxSockets
    rw [h2]
    exact h1
  | rel c healthy =>
    obtain ⟨h1, h2⟩ := release_bound p c healthy h
    refine ⟨?_, h2⟩
    show (Pool.release p c healthy).1.inUse.length +
        (Pool.release p c healthy).1.available.length ≤ (Pool.release p c healthy).1.maxSockets
    rw [h2]
    exact h1

/-- Along any run from a fresh pool, in-use plus available stays within the
configured capacity, which itself never changes. -/
theorem run_bound (n : Nat) (es : List Pool.PoolEvent) :
    (Pool.run n es).inUse.length + (Pool.run n es).available.length ≤ n ∧
    (Pool.run n es).maxSockets = n := by
  suffices hgen : ∀ (l : List Pool.PoolEvent) (p : Pool.PoolState),
      p.inUse.length + p.available.length ≤ p.maxSockets →
      (l.foldl Pool.step p).inUse.length + (l.foldl Pool.step p).available.length ≤
        (l.foldl Pool.step p).maxSockets ∧
      (l.foldl Pool.step p).maxSockets = p.maxSockets by
    obtain ⟨h1, h2⟩ := hgen es (Pool.initPool n) (by simp [Pool.initPool])
    exact ⟨le_trans h1 (le_of_eq h2), h2⟩
  intro l
  induction l with
  | nil => exact fun p hp => ⟨hp, rfl⟩
  | cons e l ih =>
    intro p hp
    rw [List.foldl_cons]
    obtain ⟨h1, h2⟩ := step_bound p e hp
    obtain ⟨h3, h4⟩ := ih (Pool.step p e) h1
    exact ⟨h3, by rw [h4, h2]⟩

/-- The C5 scenario: a pool of capacity 3, three acquires (creating sockets
0, 1, 2), three healthy releases, then three more acquires. -/
def scenarioC5 : List Pool.PoolEvent :=
  [.acq true, .acq true, .acq true,
   .rel ⟨0, 0⟩ true, .rel ⟨1, 0⟩ true, .rel ⟨2, 0⟩ true,
   .acq true, .acq true, .acq true]

/-! ## Claims -/

/-- C2: for every socket state observed by the monitor, the computed buffer
utilization is claimed to lie in [0, 1] inclusive and to be 0 when capacity
is 0. Counterexample: a buffer exactly at its high-water mark yields
utilization 100 (the code computes a percentage, not a clamped fraction in
[0, 1]), and a socket with capacity 0 and 8192 buffered bytes yields
utilization 50, not 0 (the code substitutes the 16384 default for a zero
capacity). -/
theorem c2_counterexample :
    Monitor.getBufferUtilization ⟨16384, 16384, false, false, "open"⟩ = 100 ∧
    ¬ Monitor.getBufferUtilization ⟨16384, 16384, false, false, "open"⟩ ≤ 1 ∧
    Monitor.getBufferUtilization ⟨8192, 0, false, false, "open"⟩ = 50 ∧
    Monitor.getBufferUtilization ⟨8192, 0, false, false, "open"⟩ ≠ 0 := by
  norm_num [Monitor.getBufferUtilization, Monitor.hwmOrDefault]

/-- C2 (amended): for every socket state, the computed buffer utilization is
a nonnegative percentage (0 when the socket is destroyed, occupancy over
the capacity — defaulted to 16384 when 0 — times 100 otherwise, not
clamped above), and the saturation flag is true iff utilization ≥ 80, the
80% threshold. -/
theorem c2_utilization_saturation (st : Monitor.SocketState) :
    0 ≤ Monitor.getBufferUtilization st ∧
    (Monitor.isBackpressureActive st = true ↔ 80 ≤ Monitor.getBufferUtilization st) := by
  have hpos : (0 : ℚ) < (Monitor.hwmOrDefault st.writableHighWaterMark : ℚ) := by
    exact_mod_cast hwmOrDefault_pos st.writableHighWaterMark
  by_cases hdd : st.destroyed = true
  · norm_num [Monitor.getBufferUtilization, Monitor.isBackpressureActive, hdd]
  · have key : ((Monitor.hwmOrDefault st.writableHighWaterMark : ℚ) * (8 / 10) ≤
          (st.writableLength : ℚ)) ↔
        (80 : ℚ) ≤ (st.writableLength : ℚ) /
          (Monitor.hwmOrDefault st.writableHighWaterMark : ℚ) * 100 := by
      rw [div_mul_eq_mul_div, le_div_iff₀ hpos]
      constructor <;> intro hx <;> nlinarith
    refine ⟨?_, ?_⟩
    · simp only [Monitor.getBufferUtilization, if_neg hdd]
      positivity
    · simp only [Monitor.getBufferUtilization, Monitor.isBackpressureActive, if_neg hdd,
        decide_eq_true_eq]
      exact key

/-- `adjustRate` never changes the configured nominal rate. -/
theorem adjustRate_generationRate (g : Gen.GenState) (b : Bool) :
    (Gen.adjustRate g b).generationRate = g.generationRate := by
  unfold Gen.adjustRate
  split
  · rfl
  · split <;> rfl

/-- One rate adjustment keeps a nonnegative-nominal producer inside the
[10% of nominal, nominal] window. -/
theorem adjustRate_preserves_bounds (g : Gen.GenState) (b : Bool)
    (hn : 0 ≤ g.generationRate) (h : Gen.rateInBounds g) :
    Gen.rateInBounds (Gen.adjustRate g b) := by
  obtain ⟨h1, h2⟩ := h
  unfold Gen.adjustRate Gen.rateInBounds
  split
  · exact ⟨h1, h2⟩
  · split
    · exact ⟨le_max_right _ _, max_le (by linarith) (by linarith)⟩
    · exact ⟨le_min (by linarith) (by linarith), min_le_right _ _⟩

/-- Any sequence of rate adjustments keeps the producer inside the
[10% of nominal, nominal] window. -/
theorem foldl_adjustRate_bounds (bs : List Bool) :
    ∀ g : Gen.GenState, 0 ≤ g.generationRate → Gen.rateInBounds g →
      Gen.rateInBounds (bs.foldl Gen.adjustRate g) := by
  induction bs with
  | nil => exact fun _ _ h => h
  | cons b bs ih =>
    intro g hn h
    rw [List.foldl_cons]
    exact ih _ (by rw [adjustRate_generationRate]; exact hn)
      (adjustRate_preserves_bounds g b hn h)

/-- C3: in adaptive mode, after a saturation event the producer's next rate
is ≤ 0.5× the prior rate unless the floor of 10% of the nominal rate
binds; after a drain event the next rate is ≥ 1.2× the prior rate unless
the cap of 100% of the nominal rate binds; and a rate once inside
[10% of nominal, nominal] stays inside that window under every further
sequence of adjustments. -/
theorem c3_adjustRate (g : Gen.GenState) (b : Bool)
    (hA : g.adaptiveMode = true) (hn : 0 ≤ g.generationRate) :
    ((Gen.adjustRate g true).currentRate ≤ g.currentRate * (1 / 2) ∨
      (Gen.adjustRate g true).currentRate = g.generationRate * (1 / 10)) ∧
    (g.currentRate * (6 / 5) ≤ (Gen.adjustRate g false).currentRate ∨
      (Gen.adjustRate g false).currentRate = g.generationRate) ∧
    (Gen.rateInBounds g →
      ∀ bs : List Bool, Gen.rateInBounds (bs.foldl Gen.adjustRate g)) ∧
    (Gen.rateInBounds g → Gen.rateInBounds (Gen.adjustRate g b)) := by
  have hsat : (Gen.adjustRate g true).currentRate =
      max (g.currentRate * (1 / 2)) (g.generationRate * (1 / 10)) := by
    simp [Gen.adjustRate, hA]
  have hdr : (Gen.adjustRate g false).currentRate =
      min (g.currentRate * (6 / 5)) g.generationRate := by
    simp [Gen.adjustRate, hA]
  have hgen : ∀ c : Bool, (Gen.adjustRate g c).generationRate = g.generationRate := by
    intro c
    cases c <;> simp [Gen.adjustRate, hA]
  refine ⟨?_, ?_, ?_, ?_⟩
  · rw [hsat]
    rcases le_total (g.generationRate * (1 / 10)) (g.currentRate * (1 / 2)) with h | h
    · exact Or.inl (max_le le_rfl h)
    · exact Or.inr (max_eq_right h)
  · rw [hdr]
    rcases le_total (g.currentRate * (6 / 5)) g.generationRate with h | h
    · exact Or.inl (le_min le_rfl h)
    · exact Or.inr (min_eq_right h)
  · exact fun h bs => foldl_adjustRate_bounds bs g hn h
  · rintro ⟨h1, h2⟩
    unfold Gen.rateInBounds
    rw [hgen b]
    cases b with
    | true =>
      rw [hsat]
      constructor
      · exact le_max_right _ _
      · apply max_le <;> linarith
    | false =>
      rw [hdr]
      constructor
      · apply le_min <;> linarith
      · exact min_le_right _ _

/-- C3 witness: the theorem applied to a producer with nominal rate 1000
currently at its nominal rate. -/
theorem c3_adjustRate_witness :
    ((Gen.adjustRate ⟨1000, 1000, true⟩ true).currentRate ≤ 1000 * (1 / 2) ∨
      (Gen.adjustRate ⟨1000, 1000, true⟩ true).currentRate = 1000 * (1 / 10)) ∧
    (1000 * (6 / 5) ≤ (Gen.adjustRate ⟨1000, 1000, true⟩ false).currentRate ∨
      (Gen.adjustRate ⟨1000, 1000, true⟩ false).currentRate = 1000) ∧
    (Gen.rateInBounds ⟨1000, 1000, true⟩ →
      ∀ bs : List Bool, Gen.rateInBounds (bs.foldl Gen.adjustRate ⟨1000, 1000, true⟩)) ∧
    (Gen.rateInBounds ⟨1000, 1000, true⟩ →
      Gen.rateInBounds (Gen.adjustRate ⟨1000, 1000, true⟩ true)) :=
  c3_adjustRate ⟨1000, 1000, true⟩ true rfl (by norm_num)

/-- C4: after any sequence of recordings starting from an empty history, the
monitor's buffer history holds at most 100 samples, and it is exactly the
most recent samples — the sample sequence with its oldest entries evicted
down to the cap — in chronological (oldest-first) order. -/
theorem c4_history_bounded (inputs : List (Monitor.SocketState × ℚ)) :
    (Monitor.recordAll inputs).length ≤ 100 ∧
    Monitor.recordAll inputs =
      (inputs.map (fun q => Monitor.mkSample q.1 q.2)).drop (inputs.length - 100) := by
  have hfold : Monitor.recordAll inputs =
      (inputs.map (fun q => Monitor.mkSample q.1 q.2)).foldl (Monitor.pushCap 100) [] := by
    rw [Monitor.recordAll, List.foldl_map]
    simp only [Monitor.recordStep]
  rw [hfold, foldl_pushCap_eq_drop 100 _ [] (by simp)]
  simp only [List.nil_append, List.length_nil, Nat.zero_add, List.length_map]
  refine ⟨?_, by trivial⟩
  rw [List.length_drop, List.length_map]
  omega

/-- C9 counterexample: starting and then stopping monitoring leaves the
socket's drain/data listeners attached, so a subsequent drain event bumps
the drain-event counter from 0 to 1 and a 7-byte data event bumps the
bytes-read counter from 0 to 7 — the claim that no monitor statistics
change in response to socket events after `stopMonitoring` is false. -/
theorem c9_counterexample :
    (Monitor.stopMonitoring (Monitor.startMonitoring Monitor.initMonitor)).stats.drainEvents
        = 0 ∧
    (Monitor.drainEvent (Monitor.stopMonitoring
        (Monitor.startMonitoring Monitor.initMonitor))).stats.drainEvents = 1 ∧
    (Monitor.dataEvent (Monitor.stopMonitoring
        (Monitor.startMonitoring Monitor.initMonitor)) 7).stats.totalBytesRead = 7 :=
  ⟨rfl, rfl, rfl⟩

/-- C9 (amended): after `stopMonitoring` returns, monitoring is off and the
periodic sampler is stopped cleanly — a sampler tick records no further
sample — but the socket listeners registered by `startMonitoring` remain
attached, so a subsequent drain event still increments the drain-event
counter and a subsequent data event still increments the bytes-read
counter. -/
theorem c9_stop_behavior (m : Monitor.MonitorState) (st : Monitor.SocketState)
    (t : ℚ) (n : Nat) (hl : m.listenersAttached = true) :
    (Monitor.stopMonitoring m).isMonitoring = false ∧
    (Monitor.samplerTick (Monitor.stopMonitoring m) st t).bufferHistory =
      (Monitor.stopMonitoring m).bufferHistory ∧
    (Monitor.stopMonitoring m).listenersAttached = true ∧
    (Monitor.drainEvent (Monitor.stopMonitoring m)).stats.drainEvents =
      (Monitor.stopMonitoring m).stats.drainEvents + 1 ∧
    (Monitor.dataEvent (Monitor.stopMonitoring m) n).stats.totalBytesRead =
      (Monitor.stopMonitoring m).stats.totalBytesRead + n := by
  unfold Monitor.stopMonitoring Monitor.samplerTick Monitor.drainEvent Monitor.dataEvent
    Monitor.onDrain Monitor.onData
  by_cases hm : m.isMonitoring = true <;> simp_all

/-- C9 witness: the amended theorem applied to a monitor that was started,
with a 7-byte data event. -/
theorem c9_stop_behavior_witness :
    (Monitor.stopMonitoring (Monitor.startMonitoring Monitor.initMonitor)).isMonitoring
        = false ∧
    (Monitor.samplerTick (Monitor.stopMonitoring (Monitor.startMonitoring Monitor.initMonitor))
        ⟨0, 0, false, false, "open"⟩ 0).bufferHistory =
      (Monitor.stopMonitoring (Monitor.startMonitoring Monitor.initMonitor)).bufferHistory ∧
    (Monitor.stopMonitoring (Monitor.startMonitoring Monitor.initMonitor)).listenersAttached
        = true ∧
    (Monitor.drainEvent (Monitor.stopMonitoring
        (Monitor.startMonitoring Monitor.initMonitor))).stats.drainEvents =
      (Monitor.stopMonitoring (Monitor.startMonitoring Monitor.initMonitor)).stats.drainEvents
        + 1 ∧
    (Monitor.dataEvent (Monitor.stopMonitoring
        (Monitor.startMonitoring Monitor.initMonitor)) 7).stats.totalBytesRead =
      (Monitor.stopMonitoring
        (Monitor.startMonitoring Monitor.initMonitor)).stats.totalBytesRead + 7 :=
  c9_stop_behavior (Monitor.startMonitoring Monitor.initMonitor)
    ⟨0, 0, false, false, "open"⟩ 0 7 rfl

/-- C10: `getStats` is not a pure read: it pushes one freshly recorded
sample onto the history via `recordBufferState`, so for a history within
the 100-entry cap whose entries are all older than the new sample the call
changes the history — growing it by one entry below the cap, and keeping
it at length 100 while evicting the oldest entry at the cap. -/
theorem c10_getStats_mutates (m : Monitor.MonitorState) (st : Monitor.SocketState)
    (t : ℚ) (hlen : m.bufferHistory.length ≤ 100)
    (hfresh : ∀ x ∈ m.bufferHistory, x.timestamp < t) :
    (Monitor.getStats m st t).1.bufferHistory = Monitor.recordStep m.bufferHistory st t ∧
    (Monitor.getStats m st t).1.bufferHistory ≠ m.bufferHistory ∧
    (m.bufferHistory.length < 100 →
      (Monitor.getStats m st t).1.bufferHistory.length = m.bufferHistory.length + 1) ∧
    (m.bufferHistory.length = 100 →
      (Monitor.getStats m st t).1.bufferHistory.length = 100) := by
  have hstep : (Monitor.getStats m st t).1.bufferHistory =
      Monitor.recordStep m.bufferHistory st t := rfl
  refine ⟨hstep, ?_, ?_, ?_⟩
  · rw [hstep]
    simp only [Monitor.recordStep, Monitor.pushCap]
    intro hEq
    by_cases hc : 100 < m.bufferHistory.length + 1
    · have hlen100 : m.bufferHistory.length = 100 := by omega
      rw [if_pos (by simp only [List.length_append, List.length_singleton]; omega)] at hEq
      obtain ⟨h0, h2, hh⟩ : ∃ h0 h2, m.bufferHistory = h0 :: h2 := by
        cases hht : m.bufferHistory with
        | nil => rw [hht] at hlen100; simp at hlen100
        | cons a l2 => exact ⟨a, l2, rfl⟩
      rw [hh] at hEq
      simp only [List.cons_append, List.tail_cons] at hEq
      have hmem : Monitor.mkSample st t ∈ m.bufferHistory := by
        rw [hh, ← hEq]
        exact List.mem_append_right _ (List.mem_singleton_self _)
      have hlt := hfresh _ hmem
      simp [Monitor.mkSample] at hlt
    · rw [if_neg (by simp only [List.length_append, List.length_singleton]; omega)] at hEq
      have := congrArg List.length hEq
      simp at this
  · intro hlt
    rw [hstep]
    simp only [Monitor.recordStep, Monitor.pushCap]
    rw [if_neg (by simp only [List.length_append, List.length_singleton]; omega)]
    simp
  · intro h100
    rw [hstep]
    simp only [Monitor.recordStep, Monitor.pushCap]
    rw [if_pos (by simp only [List.length_append, List.length_singleton]; omega)]
    simp [h100]

/-- C10 witness: the theorem applied to a freshly constructed monitor with
an empty history and a new sample at time 1. -/
theorem c10_getStats_mutates_witness :
    (Monitor.getStats Monitor.initMonitor ⟨0, 0, false, false, "open"⟩ 1).1.bufferHistory =
      Monitor.recordStep Monitor.initMonitor.bufferHistory ⟨0, 0, false, false, "open"⟩ 1 ∧
    (Monitor.getStats Monitor.initMonitor ⟨0, 0, false, false, "open"⟩ 1).1.bufferHistory ≠
      Monitor.initMonitor.bufferHistory ∧
    (Monitor.initMonitor.bufferHistory.length < 100 →
      (Monitor.getStats Monitor.initMonitor
        ⟨0, 0, false, false, "open"⟩ 1).1.bufferHistory.length =
        Monitor.initMonitor.bufferHistory.length + 1) ∧
    (Monitor.initMonitor.bufferHistory.length = 100 →
      (Monitor.getStats Monitor.initMonitor
        ⟨0, 0, false, false, "open"⟩ 1).1.bufferHistory.length = 100) :=
  c10_getStats_mutates Monitor.initMonitor ⟨0, 0, false, false, "open"⟩ 1
    (by simp [Monitor.initMonitor]) (by simp [Monitor.initMonitor])

/-- C8: the overridden write bumps the write-attempt counter by exactly 1
and the bytes-submitted total by the payload size, bumps the saturation
counter by exactly 1 iff the write was not accepted, and none of the
monitor's counters ever decreases under a write, a drain event or a data
event; drain and data handlers bump their counters by exactly 1 and the
byte count. -/
theorem c8_write_counters (s : Monitor.MonitorStats) (timings : List ℚ)
    (dataSize : Nat) (canWriteMore : Bool) (wl : Nat) (wt : ℚ) (n : Nat) :
    (Monitor.socketWrite s timings dataSize canWriteMore wl wt).1.writeAttempts
        = s.writeAttempts + 1 ∧
    (Monitor.socketWrite s timings dataSize canWriteMore wl wt).1.totalBytesWritten
        = s.totalBytesWritten + dataSize ∧
    (Monitor.socketWrite s timings dataSize canWriteMore wl wt).1.backpressureEvents
        = s.backpressureEvents + (if canWriteMore then 0 else 1) ∧
    s.writeAttempts ≤ (Monitor.socketWrite s timings dataSize canWriteMore wl wt).1.writeAttempts ∧
    s.backpressureEvents ≤
      (Monitor.socketWrite s timings dataSize canWriteMore wl wt).1.backpressureEvents ∧
    s.maxBufferSize ≤ (Monitor.socketWrite s timings dataSize canWriteMore wl wt).1.maxBufferSize ∧
    s.drainEvents ≤ (Monitor.socketWrite s timings dataSize canWriteMore wl wt).1.drainEvents ∧
    s.totalBytesWritten ≤
      (Monitor.socketWrite s timings dataSize canWriteMore wl wt).1.totalBytesWritten ∧
    s.totalBytesRead ≤ (Monitor.socketWrite s timings dataSize canWriteMore wl wt).1.totalBytesRead ∧
    s.writeFailures ≤ (Monitor.socketWrite s timings dataSize canWriteMore wl wt).1.writeFailures ∧
    (Monitor.onDrain s).drainEvents = s.drainEvents + 1 ∧
    s.drainEvents ≤ (Monitor.onDrain s).drainEvents ∧
    (Monitor.onData s n).totalBytesRead = s.totalBytesRead + n ∧
    s.totalBytesRead ≤ (Monitor.onData s n).totalBytesRead ∧
    (Monitor.onSocketError s).writeFailures = s.writeFailures + 1 := by
  unfold Monitor.socketWrite Monitor.onDrain Monitor.onData Monitor.onSocketError
  cases canWriteMore <;> simp [le_max_left, Nat.le_add_right]

/-- C1: along every acquire/release run, the number of in-use connections
never exceeds the pool's `maxSize`; and an acquire on a full pool with
nothing available hands out no connection — it blocks, and the blocked
waiter either fails with the acquire-timeout error (bumping the timeout
counter) when the timeout fires first, or reruns `acquire` only after a
`socketReleased` event. -/
theorem c1_in_use_bounded (n : Nat) (es : List Pool.PoolEvent) (p : Pool.PoolState)
    (ok : Bool) (hav : p.available = []) (hfull : p.maxSockets ≤ p.inUse.length) :
    (Pool.run n es).inUse.length ≤ n ∧
    Pool.acquire p ok =
      ({ p with acquisitions := p.acquisitions + 1 }, Pool.AcquireResult.blocked) ∧
    Pool.resolveWaiter p false ok = (Pool.waiterTimeout p, Pool.WaitOutcome.acquireTimeout) ∧
    (Pool.waiterTimeout p).timeouts = p.timeouts + 1 ∧
    Pool.resolveWaiter p true ok =
      ((Pool.acquire p ok).1, Pool.WaitOutcome.retried (Pool.acquire p ok).2) := by
  obtain ⟨h1, h2⟩ := run_bound n es
  refine ⟨?_, acquire_eq_blocked p ok hav hfull, rfl, rfl, rfl⟩
  exact le_trans (Nat.le_add_right _ _) h1

/-- C1 witness: the theorem applied to a run of two acquires on a pool of
capacity 2, and to a saturated pool of capacity 1 holding socket 0. -/
theorem c1_in_use_bounded_witness :
    (Pool.run 2 [.acq true, .acq true]).inUse.length ≤ 2 ∧
    Pool.acquire ⟨[], [⟨0, 0⟩], 1, 1, 0, 1, 0, 0, 0, 1⟩ true =
      ({ (⟨[], [⟨0, 0⟩], 1, 1, 0, 1, 0, 0, 0, 1⟩ : Pool.PoolState) with
          acquisitions := (⟨[], [⟨0, 0⟩], 1, 1, 0, 1, 0, 0, 0, 1⟩ :
            Pool.PoolState).acquisitions + 1 },
       Pool.AcquireResult.blocked) ∧
    Pool.resolveWaiter ⟨[], [⟨0, 0⟩], 1, 1, 0, 1, 0, 0, 0, 1⟩ false true =
      (Pool.waiterTimeout ⟨[], [⟨0, 0⟩], 1, 1, 0, 1, 0, 0, 0, 1⟩,
       Pool.WaitOutcome.acquireTimeout) ∧
    (Pool.waiterTimeout ⟨[], [⟨0, 0⟩], 1, 1, 0, 1, 0, 0, 0, 1⟩).timeouts =
      (⟨[], [⟨0, 0⟩], 1, 1, 0, 1, 0, 0, 0, 1⟩ : Pool.PoolState).timeouts + 1 ∧
    Pool.resolveWaiter ⟨[], [⟨0, 0⟩], 1, 1, 0, 1, 0, 0, 0, 1⟩ true true =
      ((Pool.acquire ⟨[], [⟨0, 0⟩], 1, 1, 0, 1, 0, 0, 0, 1⟩ true).1,
       Pool.WaitOutcome.retried (Pool.acquire ⟨[], [⟨0, 0⟩], 1, 1, 0, 1, 0, 0, 0, 1⟩ true).2) :=
  c1_in_use_bounded 2 [.acq true, .acq true] ⟨[], [⟨0, 0⟩], 1, 1, 0, 1, 0, 0, 0, 1⟩
    true rfl (by decide)

/-- C5: whenever the available list is non-empty, `acquire` pops its most
recently released connection, bumps that connection's reuse count and the
pool's reuse counter, moves it to in-use and returns it without creating
anything — the created counter is unchanged; and in the maxSize-3
scenario of three acquires, three releases and three more acquires, the
final reuse counter is 3 while the created counter stays 3. -/
theorem c5_acquire_reuses (p : Pool.PoolState) (ok : Bool) (c : Pool.Conn)
    (hL : p.available.getLast? = some c) :
    Pool.acquire p ok =
      ({ p with acquisitions := p.acquisitions + 1
                available := p.available.dropLast
                inUse := Pool.setAdd p.inUse { c with reuseCount := c.reuseCount + 1 }
                totalReused := p.totalReused + 1 },
       Pool.AcquireResult.reused { c with reuseCount := c.reuseCount + 1 }) ∧
    (Pool.acquire p ok).1.totalCreated = p.totalCreated ∧
    (Pool.run 3 scenarioC5).totalReused = 3 ∧
    (Pool.run 3 scenarioC5).totalCreated = 3 := by
  refine ⟨acquire_eq_reused p ok c hL, ?_, by decide, by decide⟩
  rw [acquire_eq_reused p ok c hL]

/-- C5 witness: the theorem applied to a capacity-1 pool whose available
list holds exactly socket 0. -/
theorem c5_acquire_reuses_witness :
    Pool.acquire ⟨[⟨0, 0⟩], [], 1, 1, 0, 1, 1, 0, 0, 1⟩ true =
      ({ (⟨[⟨0, 0⟩], [], 1, 1, 0, 1, 1, 0, 0, 1⟩ : Pool.PoolState) with
          acquisitions := (⟨[⟨0, 0⟩], [], 1, 1, 0, 1, 1, 0, 0, 1⟩ :
            Pool.PoolState).acquisitions + 1
          available := (⟨[⟨0, 0⟩], [], 1, 1, 0, 1, 1, 0, 0, 1⟩ :
            Pool.PoolState).available.dropLast
          inUse := Pool.setAdd (⟨[⟨0, 0⟩], [], 1, 1, 0, 1, 1, 0, 0, 1⟩ :
            Pool.PoolState).inUse ⟨0, 1⟩
          totalReused := (⟨[⟨0, 0⟩], [], 1, 1, 0, 1, 1, 0, 0, 1⟩ :
            Pool.PoolState).totalReused + 1 },
       Pool.AcquireResult.reused ⟨0, 1⟩) ∧
    (Pool.acquire ⟨[⟨0, 0⟩], [], 1, 1, 0, 1, 1, 0, 0, 1⟩ true).1.totalCreated =
      (⟨[⟨0, 0⟩], [], 1, 1, 0, 1, 1, 0, 0, 1⟩ : Pool.PoolState).totalCreated ∧
    (Pool.run 3 scenarioC5).totalReused = 3 ∧
    (Pool.run 3 scenarioC5).totalCreated = 3 :=
  c5_acquire_reuses ⟨[⟨0, 0⟩], [], 1, 1, 0, 1, 1, 0, 0, 1⟩ true ⟨0, 0⟩ rfl

/-- C6: releasing a connection the pool does not track as in-use is
reported as a foreign release (the warning/early-return path) and leaves
both the available and in-use sets exactly as they were. -/
theorem c6_foreign_release (p : Pool.PoolState) (c : Pool.Conn) (healthy : Bool)
    (h : Pool.setHas p.inUse c = false) :
    Pool.release p c healthy =
      ({ p with releases := p.releases + 1 }, Pool.ReleaseResult.foreignRelease) ∧
    (Pool.release p c healthy).1.available = p.available ∧
    (Pool.release p c healthy).1.inUse = p.inUse := by
  refine ⟨release_eq_foreign p c healthy h, ?_, ?_⟩ <;>
    rw [release_eq_foreign p c healthy h]

/-- C6 witness: the theorem applied to a fresh capacity-1 pool and a
connection it has never seen. -/
theorem c6_foreign_release_witness :
    Pool.release (Pool.initPool 1) ⟨0, 0⟩ true =
      ({ Pool.initPool 1 with releases := (Pool.initPool 1).releases + 1 },
       Pool.ReleaseResult.foreignRelease) ∧
    (Pool.release (Pool.initPool 1) ⟨0, 0⟩ true).1.available = (Pool.initPool 1).available ∧
    (Pool.release (Pool.initPool 1) ⟨0, 0⟩ true).1.inUse = (Pool.initPool 1).inUse :=
  c6_foreign_release (Pool.initPool 1) ⟨0, 0⟩ true rfl

/-- C7: when connection establishment fails in acquire's create-new case,
the freshly made in-use reservation is removed again — the in-use set is
restored to its prior contents — the failure counter is bumped, and the
transport error is surfaced to the caller as the result (no silent
retry). -/
theorem c7_connect_failure (p : Pool.PoolState)
    (hav : p.available = []) (hlt : p.inUse.length < p.maxSockets)
    (hfresh : ∀ x ∈ p.inUse, x.id ≠ p.nextId) :
    Pool.acquire p false =
      ({ p with acquisitions := p.acquisitions + 1
                totalCreated := p.totalCreated + 1
                nextId := p.nextId + 1
                failures := p.failures + 1 }, Pool.AcquireResult.connectFailed) ∧
    (Pool.acquire p false).1.inUse = p.inUse ∧
    (Pool.acquire p false).1.failures = p.failures + 1 := by
  have hdel : Pool.setDelete (Pool.setAdd p.inUse ⟨p.nextId, 0⟩) ⟨p.nextId, 0⟩ = p.inUse := by
    rw [setDelete_setAdd]
    exact setDelete_eq_self p.inUse ⟨p.nextId, 0⟩ hfresh
  have hEq := acquire_eq_failed p hav hlt
  rw [hdel] at hEq
  exact ⟨hEq, by rw [hEq], by rw [hEq]⟩

/-- C7 witness: the theorem applied to a fresh capacity-1 pool whose only
acquire hits a connect failure. -/
theorem c7_connect_failure_witness :
    Pool.acquire (Pool.initPool 1) false =
      ({ Pool.initPool 1 with
          acquisitions := (Pool.initPool 1).acquisitions + 1
          totalCreated := (Pool.initPool 1).totalCreated + 1
          nextId := (Pool.initPool 1).nextId + 1
          failures := (Pool.initPool 1).failures + 1 }, Pool.AcquireResult.connectFailed) ∧
    (Pool.acquire (Pool.initPool 1) false).1.inUse = (Pool.initPool 1).inUse ∧
    (Pool.acquire (Pool.initPool 1) false).1.failures = (Pool.initPool 1).failures + 1 :=
  c7_connect_failure (Pool.initPool 1) rfl (by decide) (by simp [Pool.initPool])

end TcpSocket
